import Mathlib

/-!
Verification development for the emoji bot (`src/discord_emoji.py`).

The Python source is shallowly embedded below:
* `sanitize_emoji_name` (lines 260-288) — Python strings become `List Char`;
  the `while` collision loop of the source has no a-priori termination
  argument, so it is embedded with explicit fuel and returns `Option`;
  `none` means the loop has not exited within the given fuel.
* `get_response_channel` (lines 104-125) — guilds become lists of channels.
* `get_static_emoji_files` / `search_static_emojis` (lines 440-496) — the
  directory becomes the list of file names the glob enumerates.
* the `on_submit` workflow (lines 290-437) and the static-select `callback`
  (lines 647-811) — embedded as trace-producing functions over an outcome
  environment that fixes the result of every external call.
-/

namespace EmojiBot

/-- Python strings are modelled as lists of characters. -/
abbrev PyStr := List Char

/-- The character class kept by `re.sub(r"[^a-zA-Z0-9_]", "", ...)`:
everything outside `[a-zA-Z0-9_]` is removed. -/
def isNameChar (c : Char) : Bool :=
  (('a' ≤ c && c ≤ 'z') || ('A' ≤ c && c ≤ 'Z') || ('0' ≤ c && c ≤ '9') || c == '_')

/-- Python `s.rstrip("_")`: remove trailing underscores. -/
def rstripUnderscore (s : PyStr) : PyStr :=
  (s.reverse.dropWhile (fun c => c == '_')).reverse

/-- Python `s.strip("_")`: remove leading and trailing underscores. -/
def stripUnderscore (s : PyStr) : PyStr :=
  rstripUnderscore (s.dropWhile (fun c => c == '_'))

/-- The truncation step `sanitized[:32].rstrip("_")`, applied by the source
only when the length exceeds 32 (both before the loop and inside it). -/
def truncate32 (s : PyStr) : PyStr :=
  if 32 < s.length then rstripUnderscore (s.take 32) else s

/-- Decimal digits of a natural number, most significant first
(Python `str(counter)` for the non-negative counter).  The first argument is
structural fuel; `n` itself is always enough since `n / 10 < n` for `n > 0`. -/
def natDigitsCore : Nat → Nat → PyStr → PyStr
  | 0, _, acc => acc
  | _ + 1, 0, acc => acc
  | fuel + 1, n + 1, acc =>
      natDigitsCore fuel ((n + 1) / 10) (Char.ofNat (48 + (n + 1) % 10) :: acc)

def natDigits (n : Nat) : PyStr :=
  if n = 0 then ['0'] else natDigitsCore n n []

/-- `sanitize_emoji_name`, lines 269-276: lower-case, drop characters outside
`[a-zA-Z0-9_]`, strip underscores at both ends, substitute `"custom_emoji"`
when fewer than 2 characters remain, truncate-and-rstrip when more than 32. -/
def sanitizeBase (name : PyStr) : PyStr :=
  let s := (name.map Char.toLower).filter isNameChar
  let s := stripUnderscore s
  if s.isEmpty || s.length < 2 then ("custom_emoji".toList)
  else if 32 < s.length then rstripUnderscore (s.take 32)
  else s

/-- The collision `while` loop of `sanitize_emoji_name`, lines 281-287,
with explicit fuel: while the current candidate is among the existing names,
form `original ++ "_" ++ str(counter)`, re-truncate to 32 when too long, and
repeat with `counter + 1`.  `none` = the loop did not exit within `fuel`. -/
def sanitizeLoop (existing : List PyStr) (original : PyStr) :
    PyStr → Nat → Nat → Option PyStr
  | s, _, 0 => if existing.contains s then none else some s
  | s, counter, fuel + 1 =>
      if existing.contains s then
        sanitizeLoop existing original
          (truncate32 (original ++ '_' :: natDigits counter)) (counter + 1) fuel
      else some s

/-- `EmojiPromptModal.sanitize_emoji_name(name, guild)` (lines 260-288); the
guild contributes exactly the set of its existing emoji names. -/
def sanitize_emoji_name (name : PyStr) (existing : List PyStr) (fuel : Nat) :
    Option PyStr :=
  let base := sanitizeBase name
  sanitizeLoop existing base base 1 fuel

/-- When the current candidate is not among the existing names, the
collision loop exits immediately with that candidate, whatever the fuel. -/
theorem sanitizeLoop_exit (existing : List PyStr) (original s : PyStr)
    (counter fuel : Nat) (h : existing.contains s = false) :
    sanitizeLoop existing original s counter fuel = some s := by
  have h' : s ∉ existing := by simpa using h
  cases fuel <;> simp [sanitizeLoop, h']

/-- When the current candidate collides, one loop iteration is taken. -/
theorem sanitizeLoop_step (existing : List PyStr) (original s : PyStr)
    (counter fuel : Nat) (h : existing.contains s = true) :
    sanitizeLoop existing original s counter (fuel + 1) =
      sanitizeLoop existing original
        (truncate32 (original ++ '_' :: natDigits counter)) (counter + 1) fuel := by
  have h' : s ∈ existing := by simpa using h
  simp [sanitizeLoop, h']

/-- The loop consults the existing names only through membership, so two
extensionally equal collections drive it identically. -/
theorem sanitizeLoop_congr (e₁ e₂ : List PyStr)
    (hmem : ∀ x : PyStr, x ∈ e₁ ↔ x ∈ e₂) (original : PyStr) :
    ∀ (fuel : Nat) (s : PyStr) (counter : Nat),
      sanitizeLoop e₁ original s counter fuel =
        sanitizeLoop e₂ original s counter fuel := by
  intro fuel
  induction fuel with
  | zero => intro s counter; simp [sanitizeLoop, hmem s]
  | succ fuel ih =>
      intro s counter
      by_cases hs : s ∈ e₂
      · simp [sanitizeLoop, hmem s, hs, ih]
      · simp [sanitizeLoop, hmem s, hs]

end EmojiBot

namespace EmojiBot

/-- The input that breaks the length lower bound: one `'a'`, thirty-two
underscores, one `'a'`.  After stripping nothing (both ends are `'a'`), the
34-character name is truncated to 32 and `rstrip("_")`-ed down to `"a"`. -/
def c1BadInput : PyStr := 'a' :: (List.replicate 32 '_' ++ ['a'])

/-- C1: REFUTED ON THE CODE (code bug).  The claim says every output of
`sanitize_emoji_name` has length ≥ 2, but on `c1BadInput` with no existing
emojis the function returns the single-character name `"a"`: truncation to 32
characters followed by `rstrip("_")` can shrink the name below the minimum
length, and the `< 2` fallback is never re-checked. -/
theorem c1_sanitize_length_violated :
    (∀ fuel : Nat, sanitize_emoji_name c1BadInput [] fuel = some ['a']) ∧
      ([('a' : Char)].length < 2) := by
  constructor
  · intro fuel
    show sanitizeLoop [] (sanitizeBase c1BadInput) (sanitizeBase c1BadInput) 1 fuel = _
    have hbase : sanitizeBase c1BadInput = ['a'] := by decide
    rw [hbase]
    exact sanitizeLoop_exit _ _ _ _ _ (by decide)
  · decide

/-- A 32-character base name: every collision candidate
`base ++ "_" ++ str(counter)` is longer than 32 and re-truncates to `base`. -/
def a32 : PyStr := List.replicate 32 'a'

theorem truncate32_a32_fixed (d : PyStr) :
    truncate32 (a32 ++ '_' :: d) = a32 := by
  have hlen : 32 < (a32 ++ '_' :: d).length := by
    simp [a32, List.length_append]
  have htake : (a32 ++ '_' :: d).take 32 = a32 :=
    List.take_left' (by simp [a32])
  simp only [truncate32, if_pos hlen, htake]
  decide

/-- With a 32-character base colliding with an existing name, the loop never
makes progress: each candidate truncates back to the base. -/
theorem sanitizeLoop_a32_stuck :
    ∀ (fuel counter : Nat), sanitizeLoop [a32] a32 a32 counter fuel = none := by
  intro fuel
  induction fuel with
  | zero => intro counter; simp [sanitizeLoop]
  | succ fuel ih =>
      intro counter
      rw [sanitizeLoop_step _ _ _ _ _ (by decide), truncate32_a32_fixed]
      exact ih (counter + 1)

/-- C2: REFUTED ON THE CODE (code bug).  The claim says the collision loop
always terminates with a fresh name.  But when the cleaned-up base name is 32
characters long (raw `"a" * 32`) and already taken, every suffixed candidate
`base_1`, `base_2`, … exceeds 32 characters and `[:32].rstrip("_")` truncates
it back to `base` itself, so the Python `while` loop runs forever.  In the
fuel embedding: no amount of fuel makes the loop exit. -/
theorem c2_sanitize_nontermination :
    ∀ fuel : Nat, sanitize_emoji_name a32 [a32] fuel = none := by
  intro fuel
  show sanitizeLoop [a32] (sanitizeBase a32) (sanitizeBase a32) 1 fuel = none
  have hbase : sanitizeBase a32 = a32 := by decide
  rw [hbase]
  exact sanitizeLoop_a32_stuck fuel 1

/-- C5: REFUTED ON THE CODE.  `sanitize("x", {"x"})` is claimed to return
`"x_1"`, but the one-character base `"x"` triggers the `len < 2` fallback
before the uniqueness loop: the code returns `"custom_emoji"` (which does not
collide with `"x"`), never `"x_1"`. -/
theorem c5_counterexample :
    sanitize_emoji_name ("x".toList) ["x".toList] 5 = some ("custom_emoji".toList) ∧
      sanitize_emoji_name ("x".toList) ["x".toList] 0 = some ("custom_emoji".toList) ∧
      "custom_emoji".toList ≠ "x_1".toList := by
  refine ⟨by decide, by decide, by decide⟩

/-- C5 amended: the fallback makes `sanitize("x", {"x"})` return
`"custom_emoji"`; the claimed suffixing behaviour does hold for bases of
length ≥ 2: `sanitize("xy", {"xy"}) = "xy_1"` and
`sanitize("xy", {"xy","xy_1"}) = "xy_2"`, for every sufficient fuel. -/
theorem c5_amended_suffixing :
    ∀ fuel : Nat,
      sanitize_emoji_name ("x".toList) ["x".toList] fuel =
          some ("custom_emoji".toList) ∧
        sanitize_emoji_name ("xy".toList) ["xy".toList] (fuel + 1) =
          some ("xy_1".toList) ∧
        sanitize_emoji_name ("xy".toList) ["xy".toList, "xy_1".toList] (fuel + 2) =
          some ("xy_2".toList) := by
  intro fuel
  refine ⟨?_, ?_, ?_⟩
  · show sanitizeLoop ["x".toList] (sanitizeBase ("x".toList))
        (sanitizeBase ("x".toList)) 1 fuel = _
    have hbase : sanitizeBase ("x".toList) = "custom_emoji".toList := by decide
    rw [hbase]
    exact sanitizeLoop_exit _ _ _ _ _ (by decide)
  · show sanitizeLoop ["xy".toList] (sanitizeBase ("xy".toList))
        (sanitizeBase ("xy".toList)) 1 (fuel + 1) = _
    have hbase : sanitizeBase ("xy".toList) = "xy".toList := by decide
    rw [hbase, sanitizeLoop_step _ _ _ _ _ (by decide)]
    have harg : truncate32 ("xy".toList ++ '_' :: natDigits 1) = "xy_1".toList := by
      decide
    rw [harg]
    exact sanitizeLoop_exit _ _ _ _ _ (by decide)
  · show sanitizeLoop ["xy".toList, "xy_1".toList] (sanitizeBase ("xy".toList))
        (sanitizeBase ("xy".toList)) 1 (fuel + 2) = _
    have hbase : sanitizeBase ("xy".toList) = "xy".toList := by decide
    rw [hbase, sanitizeLoop_step _ _ _ _ _ (by decide)]
    have harg1 : truncate32 ("xy".toList ++ '_' :: natDigits 1) = "xy_1".toList := by
      decide
    rw [harg1, sanitizeLoop_step _ _ _ _ _ (by decide)]
    have harg2 : truncate32 ("xy".toList ++ '_' :: natDigits 2) = "xy_2".toList := by
      decide
    rw [harg2]
    exact sanitizeLoop_exit _ _ _ _ _ (by decide)

/-- C9: CONFIRMED.  The sanitizer is a pure function of the raw name and the
*set* of existing names: any two collections with the same members (whatever
their order or multiplicity — Python builds a `set` from `guild.emojis`)
produce the same output at every fuel.  Purity/no-mutation is inherent to the
embedding; the content is this set-extensionality. -/
theorem c9_sanitize_deterministic (name : PyStr) (e₁ e₂ : List PyStr)
    (fuel : Nat) (h₁ : e₁ ⊆ e₂) (h₂ : e₂ ⊆ e₁) :
    sanitize_emoji_name name e₁ fuel = sanitize_emoji_name name e₂ fuel := by
  show sanitizeLoop e₁ (sanitizeBase name) (sanitizeBase name) 1 fuel =
    sanitizeLoop e₂ (sanitizeBase name) (sanitizeBase name) 1 fuel
  exact sanitizeLoop_congr e₁ e₂ (fun x => ⟨fun hx => h₁ hx, fun hx => h₂ hx⟩)
    (sanitizeBase name) fuel (sanitizeBase name) 1

/-- Witness for C9 at concrete inputs: `["ab","cd"]` and `["cd","ab","ab"]`
have the same members, and the sanitizer returns the same name on both. -/
theorem c9_sanitize_deterministic_witness :
    sanitize_emoji_name ("ab".toList) ["ab".toList, "cd".toList] 4 =
      sanitize_emoji_name ("ab".toList) ["cd".toList, "ab".toList, "ab".toList] 4 :=
  c9_sanitize_deterministic ("ab".toList) _ _ 4 (by decide) (by decide)

/-! ### Channel resolution (`get_response_channel`, lines 104-125) -/

/-- A guild channel, reduced to what `get_response_channel` consults: its id
and whether `channel.permissions_for(guild.me).send_messages` holds. -/
structure Channel where
  id : Nat
  canSend : Bool
deriving DecidableEq, Repr

/-- A guild, reduced to what `get_response_channel` consults:
`guild.get_channel` lookups (over all channels) and the ordered
`guild.text_channels` list. -/
structure Guild where
  allChannels : List Channel
  textChannels : List Channel
deriving DecidableEq, Repr

/-- The channel id hardcoded at line 107 of the source. -/
def targetChannelId : Nat := 992467592180670485

/-- `get_response_channel(guild, current_channel)` (lines 104-125):
try the hardcoded channel if it exists and is sendable; else the current
channel if sendable; else the first text channel with send permission;
else `None`. -/
def get_response_channel (g : Guild) (current : Channel) : Option Channel :=
  match g.allChannels.find? (fun c => c.id == targetChannelId) with
  | some ch =>
      if ch.canSend then some ch
      else if current.canSend then some current
      else g.textChannels.find? (fun c => c.canSend)
  | none =>
      if current.canSend then some current
      else g.textChannels.find? (fun c => c.canSend)

/-- The claim's ordered-preference policy, written as it is stated: first
available among (fixed channel when postable, originating channel when
postable, first text channel with send permission), else none. -/
def channelPolicySpec (g : Guild) (current : Channel) : Option Channel :=
  let fixedCandidate :=
    match g.allChannels.find? (fun c => c.id == targetChannelId) with
    | some ch => if ch.canSend then some ch else none
    | none => none
  let originCandidate := if current.canSend then some current else none
  let anyCandidate := g.textChannels.find? (fun c => c.canSend)
  fixedCandidate.or (originCandidate.or anyCandidate)

/-- C6: CONFIRMED.  `get_response_channel` implements exactly the stated
preference order.  (The "configured/fixed response channel" is the id
hardcoded at line 107; the `RESPONSE_CHANNEL` environment variable read at
line 16 is never consulted.) -/
theorem c6_channel_resolution (g : Guild) (current : Channel) :
    get_response_channel g current = channelPolicySpec g current := by
  unfold get_response_channel channelPolicySpec
  cases g.allChannels.find? (fun c => c.id == targetChannelId) with
  | none =>
      cases hcur : current.canSend <;> simp [Option.or, hcur]
  | some ch =>
      cases hch : ch.canSend <;> cases hcur : current.canSend <;>
        simp [Option.or, hch, hcur]

/-! ### Static assets (`get_static_emoji_files` / `search_static_emojis`,
lines 440-496).  The directory is modelled as the list of file names the
filesystem enumerates, in enumeration order. -/

/-- The glob patterns of line 467, as suffixes. -/
def imagePatterns : List PyStr := [".png".toList, ".jpg".toList, ".jpeg".toList, ".gif".toList]

/-- `glob.glob(os.path.join(STATIC_FOLDER, "*.ext"))` membership for a file
name inside the folder: the name ends with the extension; `*` does not match
a leading dot, so hidden files are excluded. -/
def globMatches (ext : PyStr) (f : PyStr) : Bool :=
  ext.isSuffixOf f && !(['.'].isPrefixOf f)

/-- `get_static_emoji_files()` (lines 440-479): collect the files of each
pattern in pattern order, then return the sorted base names (within one
folder the base name is the file name itself).  Python `sorted` compares
strings lexicographically by code point, which is the lexicographic order on
`List Char`. -/
def get_static_emoji_files (dir : List PyStr) : List PyStr :=
  let files := (imagePatterns.map (fun ext => dir.filter (globMatches ext))).flatten
  files.insertionSort (· ≤ ·)

/-- Python `s.lower()` on the ASCII file names and queries involved. -/
def lowerChars (s : PyStr) : PyStr := s.map Char.toLower

/-- Python substring test `needle in hay`. -/
def containsSub (needle hay : PyStr) : Bool :=
  hay.tails.any (fun t => needle.isPrefixOf t)

/-- `query_lower in filename.lower()` (line 493). -/
def matchesQuery (query f : PyStr) : Bool :=
  containsSub (lowerChars query) (lowerChars f)

/-- Python `query.strip()` (whitespace at both ends). -/
def pyStrip (s : PyStr) : PyStr :=
  ((s.dropWhile Char.isWhitespace).reverse.dropWhile Char.isWhitespace).reverse

/-- `search_static_emojis(query)` (lines 482-496): a whitespace-only query
returns the first 25 of all files; otherwise the case-insensitive substring
matches of the (unstripped) query, limited to 25. -/
def search_static_emojis (dir : List PyStr) (query : PyStr) : List PyStr :=
  let allFiles := get_static_emoji_files dir
  if (pyStrip query).isEmpty then allFiles.take 25
  else (allFiles.filter (fun f => matchesQuery query f)).take 25

theorem flatten_filters_perm (pats : List PyStr) (d₁ d₂ : List PyStr)
    (h : d₁.Perm d₂) :
    ((pats.map (fun ext => d₁.filter (globMatches ext))).flatten).Perm
      ((pats.map (fun ext => d₂.filter (globMatches ext))).flatten) := by
  induction pats with
  | nil => simp
  | cons ext pats ih =>
      simpa using List.Perm.append (h.filter (globMatches ext)) ih

/-- C8: CONFIRMED.  The listing is always ascending-sorted, and it is a
function of the directory contents as a multiset: any two enumeration orders
of the same files produce the identical listing (hence two calls in the same
directory state agree). -/
theorem c8_listing_sorted_order_independent :
    (∀ dir : List PyStr,
        (get_static_emoji_files dir).Sorted (· ≤ ·)) ∧
      (∀ d₁ d₂ : List PyStr, d₁.Perm d₂ →
        get_static_emoji_files d₁ = get_static_emoji_files d₂) := by
  constructor
  · intro dir
    exact List.sorted_insertionSort (· ≤ ·) _
  · intro d₁ d₂ h
    exact List.eq_of_perm_of_sorted
      (((List.perm_insertionSort (· ≤ ·) _).trans
          (flatten_filters_perm imagePatterns d₁ d₂ h)).trans
        (List.perm_insertionSort (· ≤ ·) _).symm)
      (List.sorted_insertionSort (· ≤ ·) _)
      (List.sorted_insertionSort (· ≤ ·) _)

/-- Witness for C8: the two enumeration orders of `{a.png, b.png}` yield the
same listing. -/
theorem c8_listing_witness :
    get_static_emoji_files ["b.png".toList, "a.png".toList] =
      get_static_emoji_files ["a.png".toList, "b.png".toList] :=
  c8_listing_sorted_order_independent.2 _ _ (List.Perm.swap _ _ _)

/-- A directory of 26 files, every one matching the query `"a"`. -/
def c7Dir : List PyStr :=
  ["aa.png".toList, "ab.png".toList, "ac.png".toList, "ad.png".toList,
   "ae.png".toList, "af.png".toList, "ag.png".toList, "ah.png".toList,
   "ai.png".toList, "aj.png".toList, "ak.png".toList, "al.png".toList,
   "am.png".toList, "an.png".toList, "ao.png".toList, "ap.png".toList,
   "aq.png".toList, "ar.png".toList, "as.png".toList, "at.png".toList,
   "au.png".toList, "av.png".toList, "aw.png".toList, "ax.png".toList,
   "ay.png".toList, "az.png".toList]

/-- C7 counterexample: with 26 matching files, the non-empty-query search
returns only 25 names, not "exactly those listed asset names that contain the
query case-insensitively". -/
theorem c7_counterexample :
    search_static_emojis c7Dir ("a".toList) ≠
        (get_static_emoji_files c7Dir).filter (fun f => matchesQuery ("a".toList) f) ∧
      (search_static_emojis c7Dir ("a".toList)).length = 25 ∧
      ((get_static_emoji_files c7Dir).filter
          (fun f => matchesQuery ("a".toList) f)).length = 26 := by
  refine ⟨by decide, by decide, by decide⟩

/-- C7 amended: empty (or whitespace-only) queries return the listing up to
the 25-entry display cap; a non-empty query returns the first 25 of the
case-insensitive substring matches — exactly the matching subset whenever at
most 25 names match. -/
theorem c7_search_characterization (dir : List PyStr) (q : PyStr) :
    ((pyStrip q).isEmpty = true →
        search_static_emojis dir q = (get_static_emoji_files dir).take 25) ∧
      ((pyStrip q).isEmpty = false →
        search_static_emojis dir q =
            ((get_static_emoji_files dir).filter
              (fun f => matchesQuery q f)).take 25 ∧
          (((get_static_emoji_files dir).filter
              (fun f => matchesQuery q f)).length ≤ 25 →
            search_static_emojis dir q =
              (get_static_emoji_files dir).filter (fun f => matchesQuery q f))) := by
  constructor
  · intro h
    simp [search_static_emojis, h]
  · intro h
    constructor
    · simp [search_static_emojis, h]
    · intro hlen
      simp [search_static_emojis, h, List.take_of_length_le hlen]

/-- Witness for C7's amended claim at concrete inputs. -/
theorem c7_search_characterization_witness :
    search_static_emojis ["b.png".toList] "   ".toList =
        (get_static_emoji_files ["b.png".toList]).take 25 ∧
      search_static_emojis ["b.png".toList] "b".toList =
        (get_static_emoji_files ["b.png".toList]).filter
          (fun f => matchesQuery ("b".toList) f) :=
  ⟨(c7_search_characterization ["b.png".toList] "   ".toList).1 (by decide),
    ((c7_search_characterization ["b.png".toList] "b".toList).2 (by decide)).2
      (by decide)⟩

/-! ### The provisioning workflow (`EmojiPromptModal.on_submit`, lines
290-437, and `StaticEmojiSelect.callback`, lines 647-811).

Each external call's outcome is fixed by an environment record; the workflow
body is embedded as the list of calls and user-visible messages it performs,
in program order.  String payloads (prompt, urls, image bytes) never affect
the control flow, so they are omitted from the events. -/

/-- Events of one workflow execution, in program order. -/
inductive Ev
  | errNoChannel     -- "I don't have permission to send messages in any channel."
  | genCall          -- the openai images.generate call
  | errTimeout       -- "OpenAI API request timed out."
  | errGenFail       -- "Failed to generate image"
  | errNoUrl         -- "No image URL returned from OpenAI"
  | dlCall           -- the aiohttp download
  | errDownload      -- "Could not download image." (non-200 status)
  | errDlTimeout     -- "Image download timed out."
  | errDlFail        -- "Failed to download image"
  | resizeDone       -- PIL crop/resize succeeded
  | resizeFallback   -- PIL failed; original bytes used (non-fatal)
  | createCall       -- guild.create_custom_emoji
  | errPerm          -- "I don't have permission to add emojis."
  | errRegister      -- "Failed to create emoji"
  | registerOk       -- the emoji resource now exists
  | reactCall        -- target_message.add_reaction
  | reactOk
  | announceCall     -- response_channel.send(success_message)
  | announceOk
  | confirmCall      -- the ephemeral confirmation followup
  | confirmOk
  | errReact         -- "Failed to react" (HTTPException in the react/announce block)
  | deleteCall       -- emoji.delete()
  | abortedDefer     -- static path: interaction defer failed, handler returns
  | errNotFound      -- static path: "Selected emoji file not found"
  | errRead          -- static path: "Failed to read emoji file"
deriving DecidableEq

inductive GenOutcome | ok | noUrl | timeout | fail
deriving DecidableEq

inductive DlOutcome | ok | badStatus | timeout | fail
deriving DecidableEq

inductive CreateOutcome | ok | forbidden | httpFail
deriving DecidableEq

/-- Outcome of the react-then-announce-then-confirm `try` block: which of the
three awaited calls raises `HTTPException` first, if any. -/
inductive RAOutcome | reactFail | announceFail | confirmFail | allOk
deriving DecidableEq

/-- Events of the react/announce/confirm block (lines 416-431 and 777-805):
any failure jumps to the `except` branch that reports "Failed to react". -/
def raEvents : RAOutcome → List Ev
  | .reactFail => [.reactCall, .errReact]
  | .announceFail => [.reactCall, .reactOk, .announceCall, .errReact]
  | .confirmFail =>
      [.reactCall, .reactOk, .announceCall, .announceOk, .confirmCall, .errReact]
  | .allOk =>
      [.reactCall, .reactOk, .announceCall, .announceOk, .confirmCall, .confirmOk]

/-- The outcomes of the external calls made by `on_submit`. -/
structure SubmitEnv where
  hasChannel : Bool            -- get_response_channel returned a channel
  gen : GenOutcome
  dl : DlOutcome
  resizeOk : Bool
  create : CreateOutcome
  ra : RAOutcome
  deleteFails : Bool           -- emoji.delete() raises HTTPException
deriving DecidableEq

/-- `EmojiPromptModal.on_submit` (lines 290-437) as a trace.  The final
`emoji.delete()` is inside `try: ... except HTTPException: pass`, so its
outcome (`deleteFails`) produces no event either way. -/
def onSubmit (e : SubmitEnv) : List Ev :=
  if !e.hasChannel then [.errNoChannel]
  else
    match e.gen with
    | .timeout => [.genCall, .errTimeout]
    | .fail => [.genCall, .errGenFail]
    | .noUrl => [.genCall, .errNoUrl]
    | .ok =>
      match e.dl with
      | .badStatus => [.genCall, .dlCall, .errDownload]
      | .timeout => [.genCall, .dlCall, .errDlTimeout]
      | .fail => [.genCall, .dlCall, .errDlFail]
      | .ok =>
        let pre := [Ev.genCall, Ev.dlCall] ++
          (if e.resizeOk then [Ev.resizeDone] else [Ev.resizeFallback])
        match e.create with
        | .forbidden => pre ++ [.createCall, .errPerm]
        | .httpFail => pre ++ [.createCall, .errRegister]
        | .ok => pre ++ [.createCall, .registerOk] ++ raEvents e.ra ++ [.deleteCall]

/-- The outcomes of the external calls made by the static-select callback. -/
structure StaticEnv where
  deferOk : Bool               -- interaction.response.defer succeeded
  fileExists : Bool            -- os.path.exists(file_path)
  hasChannel : Bool
  readOk : Bool                -- open(file_path).read() succeeded
  isGif : Bool                 -- file name ends with ".gif": resize skipped
  resizeOk : Bool
  create : CreateOutcome
  ra : RAOutcome
  deleteFails : Bool
deriving DecidableEq

/-- `StaticEmojiSelect.callback` (lines 647-811) as a trace. -/
def staticCallback (e : StaticEnv) : List Ev :=
  if !e.deferOk then [.abortedDefer]
  else if !e.fileExists then [.errNotFound]
  else if !e.hasChannel then [.errNoChannel]
  else if !e.readOk then [.errRead]
  else
    let pre : List Ev :=
      if e.isGif then []
      else if e.resizeOk then [Ev.resizeDone] else [Ev.resizeFallback]
    match e.create with
    | .forbidden => pre ++ [.createCall, .errPerm]
    | .httpFail => pre ++ [.createCall, .errRegister]
    | .ok => pre ++ [.createCall, .registerOk] ++ raEvents e.ra ++ [.deleteCall]

set_option maxHeartbeats 4000000 in
/-- C3: CONFIRMED.  In both workflows: a failing deletion is invisible
(the trace does not depend on `deleteFails`); whenever registration
succeeded, the emoji is deleted exactly once, as the very last step, after
the reaction/announcement block ran (whatever its outcome); and whenever
registration never succeeded, no deletion is attempted. -/
theorem c3_cleanup_exactly_once :
    (∀ (e : SubmitEnv) (b : Bool),
        onSubmit { e with deleteFails := b } = onSubmit e) ∧
      (∀ e : SubmitEnv,
        (Ev.registerOk ∈ onSubmit e →
          (onSubmit e).count Ev.deleteCall = 1 ∧
            (onSubmit e).getLast? = some Ev.deleteCall ∧
            Ev.reactCall ∈ onSubmit e) ∧
          (Ev.registerOk ∉ onSubmit e → Ev.deleteCall ∉ onSubmit e)) ∧
      (∀ (e : StaticEnv) (b : Bool),
        staticCallback { e with deleteFails := b } = staticCallback e) ∧
      (∀ e : StaticEnv,
        (Ev.registerOk ∈ staticCallback e →
          (staticCallback e).count Ev.deleteCall = 1 ∧
            (staticCallback e).getLast? = some Ev.deleteCall ∧
            Ev.reactCall ∈ staticCallback e) ∧
          (Ev.registerOk ∉ staticCallback e → Ev.deleteCall ∉ staticCallback e)) := by
  refine ⟨fun e b => rfl, ?_, fun e b => rfl, ?_⟩
  · intro e
    obtain ⟨hc, g, d, r, cr, ra, df⟩ := e
    cases hc <;> cases g <;> cases d <;> cases r <;> cases cr <;> cases ra <;>
      cases df <;> decide
  · intro e
    obtain ⟨dok, fe, hc, ro, ig, r, cr, ra, df⟩ := e
    cases dok <;> cases fe <;> cases hc <;> cases ro <;> cases ig <;> cases r <;>
      cases cr <;> cases ra <;> cases df <;> decide

/-- Witness for C3 at a successful registration with a failed announcement:
the emoji is deleted exactly once, last, after the reaction. -/
theorem c3_cleanup_witness :
    (onSubmit ⟨true, .ok, .ok, true, .ok, .announceFail, true⟩).count
        Ev.deleteCall = 1 ∧
      (onSubmit ⟨true, .ok, .ok, true, .ok, .announceFail, true⟩).getLast? =
        some Ev.deleteCall ∧
      Ev.reactCall ∈ onSubmit ⟨true, .ok, .ok, true, .ok, .announceFail, true⟩ :=
  (c3_cleanup_exactly_once.2.1 ⟨true, .ok, .ok, true, .ok, .announceFail, true⟩).1
    (by decide)

/-- C4: CONFIRMED.  If the generation call times out (and a response channel
existed, so generation was attempted at all), the workflow ends with exactly
the timeout report: one generation attempt (no retry), no registration, no
reaction. -/
theorem c4_generation_timeout (e : SubmitEnv) (hch : e.hasChannel = true)
    (hgen : e.gen = GenOutcome.timeout) :
    onSubmit e = [Ev.genCall, Ev.errTimeout] ∧
      Ev.errTimeout ∈ onSubmit e ∧
      Ev.createCall ∉ onSubmit e ∧
      Ev.reactCall ∉ onSubmit e ∧
      (onSubmit e).count Ev.genCall = 1 := by
  obtain ⟨hc, g, d, r, cr, ra, df⟩ := e
  simp only at hch hgen
  subst hch hgen
  cases d <;> cases r <;> cases cr <;> cases ra <;> cases df <;> decide

/-- Witness for C4 at a concrete environment. -/
theorem c4_generation_timeout_witness :
    onSubmit ⟨true, .timeout, .ok, true, .ok, .allOk, false⟩ =
        [Ev.genCall, Ev.errTimeout] ∧
      Ev.errTimeout ∈ onSubmit ⟨true, .timeout, .ok, true, .ok, .allOk, false⟩ ∧
      Ev.createCall ∉ onSubmit ⟨true, .timeout, .ok, true, .ok, .allOk, false⟩ ∧
      Ev.reactCall ∉ onSubmit ⟨true, .timeout, .ok, true, .ok, .allOk, false⟩ ∧
      (onSubmit ⟨true, .timeout, .ok, true, .ok, .allOk, false⟩).count
        Ev.genCall = 1 :=
  c4_generation_timeout ⟨true, .timeout, .ok, true, .ok, .allOk, false⟩ rfl rfl

/-! ### The raw name fed to the sanitizer (lines 314-320 and 706-710). -/

/-- Python `str.split()` (no separator argument): split on runs of
whitespace, discarding empty pieces.  The accumulator holds the current
word reversed. -/
def splitWsAux : PyStr → PyStr → List PyStr
  | [], acc => if acc.isEmpty then [] else [acc.reverse]
  | c :: rest, acc =>
      if c.isWhitespace then
        if acc.isEmpty then splitWsAux rest []
        else acc.reverse :: splitWsAux rest []
      else splitWsAux rest (c :: acc)

def splitWords (s : PyStr) : List PyStr := splitWsAux s []

/-- Lines 317-320: `self.prompt.value.split()[0] if self.prompt.value.split()
else "emoji"` — the raw name of a generated emoji. -/
def generatedRawName (prompt : PyStr) : PyStr :=
  match splitWords prompt with
  | [] => "emoji".toList
  | w :: _ => w

/-- `os.path.splitext(p)[0]` for a plain file name (no path separator):
split at the last dot, unless every character before that dot is itself a
dot (leading-dot files keep their name whole). -/
def splitextRoot (p : PyStr) : PyStr :=
  match p.reverse.dropWhile (fun c => c != '.') with
  | [] => p
  | _ :: b => if b.any (fun c => c != '.') then b.reverse else p

/-- Line 707: `base_name = os.path.splitext(selected_file)[0]` — the raw
name of a static emoji. -/
def staticRawName (selectedFile : PyStr) : PyStr := splitextRoot selectedFile

theorem splitWsAux_token (t : PyStr) (noWs : ∀ c ∈ t, c.isWhitespace = false) :
    ∀ (acc rest : PyStr), (acc ≠ [] ∨ t ≠ []) →
      splitWsAux (t ++ ' ' :: rest) acc =
        (acc.reverse ++ t) :: splitWsAux rest [] := by
  induction t with
  | nil =>
      intro acc rest hne
      have hacc : acc ≠ [] := by
        rcases hne with h | h
        · exact h
        · exact absurd rfl h
      simp [splitWsAux, hacc]
  | cons c t ih =>
      intro acc rest _
      have hc : c.isWhitespace = false := noWs c (List.mem_cons_self c t)
      have hrec := ih (fun x hx => noWs x (List.mem_cons_of_mem c hx))
        (c :: acc) rest (Or.inl (by simp))
      simp only [List.cons_append, splitWsAux, hc, Bool.false_eq_true, if_false,
        List.append_eq, hrec, List.reverse_cons, List.append_assoc,
        List.cons_append, List.nil_append]

theorem splitWsAux_single (t : PyStr) (noWs : ∀ c ∈ t, c.isWhitespace = false) :
    ∀ acc : PyStr, (acc ≠ [] ∨ t ≠ []) →
      splitWsAux t acc = [acc.reverse ++ t] := by
  induction t with
  | nil =>
      intro acc hne
      have hacc : acc ≠ [] := by
        rcases hne with h | h
        · exact h
        · exact absurd rfl h
      simp [splitWsAux, hacc]
  | cons c t ih =>
      intro acc _
      have hc : c.isWhitespace = false := noWs c (List.mem_cons_self c t)
      have hrec := ih (fun x hx => noWs x (List.mem_cons_of_mem c hx))
        (c :: acc) (Or.inl (by simp))
      simp only [splitWsAux, hc, Bool.false_eq_true, if_false, List.append_eq,
        hrec, List.reverse_cons, List.append_assoc, List.cons_append,
        List.nil_append]

theorem splitWsAux_allWhitespace :
    ∀ p : PyStr, (∀ c ∈ p, c.isWhitespace = true) → splitWsAux p [] = [] := by
  intro p
  induction p with
  | nil => intro _; simp [splitWsAux]
  | cons c p ih =>
      intro hws
      have hc : c.isWhitespace = true := hws c (List.mem_cons_self c p)
      simp [splitWsAux, hc, ih (fun x hx => hws x (List.mem_cons_of_mem c hx))]

theorem dropWhile_append_of_all (p : Char → Bool) :
    ∀ (l₁ l₂ : PyStr), (∀ c ∈ l₁, p c = true) →
      (l₁ ++ l₂).dropWhile p = l₂.dropWhile p := by
  intro l₁ l₂
  induction l₁ with
  | nil => intro _; simp
  | cons c l₁ ih =>
      intro hall
      have hc : p c = true := hall c (List.mem_cons_self c l₁)
      simp [List.dropWhile, hc, ih (fun x hx => hall x (List.mem_cons_of_mem c hx))]

/-- C10: CONFIRMED.  (a) When the prompt is a whitespace-free token followed
by a space and anything, the raw name is exactly that first token — the rest
of the prompt never influences it; (b) a prompt that is a single
whitespace-free token is its own raw name; (c) a prompt with no tokens
yields the literal `"emoji"`; (d) for a static asset `stem.ext` (no dot in
the extension, some non-dot in the stem) the raw name is the file name with
its extension removed. -/
theorem c10_raw_name_derivation :
    (∀ t rest : PyStr, t ≠ [] → (∀ c ∈ t, c.isWhitespace = false) →
        generatedRawName (t ++ ' ' :: rest) = t) ∧
      (∀ t : PyStr, t ≠ [] → (∀ c ∈ t, c.isWhitespace = false) →
        generatedRawName t = t) ∧
      (∀ p : PyStr, (∀ c ∈ p, c.isWhitespace = true) →
        generatedRawName p = "emoji".toList) ∧
      (∀ stem ext : PyStr, stem.any (fun c => c != '.') = true → '.' ∉ ext →
        staticRawName (stem ++ '.' :: ext) = stem) := by
  refine ⟨?_, ?_, ?_, ?_⟩
  · intro t rest ht hws
    unfold generatedRawName splitWords
    rw [splitWsAux_token t hws [] rest (Or.inr ht)]
    simp
  · intro t ht hws
    unfold generatedRawName splitWords
    rw [splitWsAux_single t hws [] (Or.inr ht)]
    simp
  · intro p hws
    unfold generatedRawName splitWords
    rw [splitWsAux_allWhitespace p hws]
  · intro stem ext hstem hext
    unfold staticRawName splitextRoot
    have hrev : (stem ++ '.' :: ext).reverse =
        ext.reverse ++ '.' :: stem.reverse := by
      simp
    have hall : ∀ c ∈ ext.reverse, (c != '.') = true := by
      intro c hc
      have : c ∈ ext := List.mem_reverse.mp hc
      simp only [bne_iff_ne, ne_eq]
      intro hcdot
      exact hext (hcdot ▸ this)
    rw [hrev, dropWhile_append_of_all _ _ _ hall]
    have hstop : List.dropWhile (fun c => c != '.') ('.' :: stem.reverse) =
        '.' :: stem.reverse := by
      simp [List.dropWhile]
    rw [hstop]
    have hany : stem.reverse.any (fun c => c != '.') = true := by
      simpa [List.any_reverse] using hstem
    simp [hany]

/-- Witness for C10 at concrete prompts and file names. -/
theorem c10_raw_name_derivation_witness :
    generatedRawName ("cat".toList ++ ' ' :: "in hat".toList) = "cat".toList ∧
      generatedRawName ("cat".toList) = "cat".toList ∧
      generatedRawName ("  ".toList) = "emoji".toList ∧
      staticRawName ("smile_face".toList ++ '.' :: "png".toList) =
        "smile_face".toList :=
  ⟨c10_raw_name_derivation.1 _ _ (by decide) (by decide),
    c10_raw_name_derivation.2.1 _ (by decide) (by decide),
    c10_raw_name_derivation.2.2.1 _ (by decide),
    c10_raw_name_derivation.2.2.2 _ _ (by decide) (by decide)⟩

end EmojiBot
